import Mathlib

/-!
Shallow embedding of the vault-recall core logic: the question validator
(`validation-service`), the import pipeline (`import-service`), the quiz
session engine (`quiz-service` with the Fisher-Yates shuffle from the
helpers module), and the streak state machine (`streak-service`).

JavaScript runtime values reaching the validator are untyped, so they are
modelled by an inductive `JValue` with explicit truthiness and `typeof`
semantics.  Numbers in the core are integers (indices, counts, streak
counters); score arithmetic is modelled over `ℚ` with JavaScript's
`Math.round` as `jsRound`.  Calendar dates are modelled as day indices
(`Nat`), faithful to the source which normalises all dates to local
midnight before comparing.
-/

namespace VaultRecall

/-- Model of a JavaScript runtime value as consumed by the validator. -/
inductive JValue where
  | vNull
  | vUndefined
  | vBool (b : Bool)
  | vNum (n : Int)
  | vStr (s : String)
  | vArr (elems : List JValue)
  | vObj (fields : List (String × JValue))

/-- JavaScript truthiness of a value (`!v` in the source is `!jTruthy v`). -/
def jTruthy : JValue → Bool
  | .vNull => false
  | .vUndefined => false
  | .vBool b => b
  | .vNum n => n != 0
  | .vStr s => s != ""
  | .vArr _ => true
  | .vObj _ => true

/-- JavaScript `typeof` operator. -/
def jTypeof : JValue → String
  | .vNull => "object"
  | .vUndefined => "undefined"
  | .vBool _ => "boolean"
  | .vNum _ => "number"
  | .vStr _ => "string"
  | .vArr _ => "object"
  | .vObj _ => "object"

/-- `Array.isArray`. -/
def jIsArray : JValue → Bool
  | .vArr _ => true
  | _ => false

/-- `typeof x === 'string'` specialised to one value. -/
def isJString : JValue → Bool
  | .vStr _ => true
  | _ => false

/-- First-match lookup of a property in an object's field list. -/
def lookupField : List (String × JValue) → String → JValue
  | [], _ => .vUndefined
  | (k, val) :: rest, name => if k == name then val else lookupField rest name

/-- Property access `v[name]`; `undefined` on non-objects. -/
def getField (v : JValue) (name : String) : JValue :=
  match v with
  | .vObj fields => lookupField fields name
  | _ => .vUndefined

/-- Strict equality of a value against a string literal (`v === tag`). -/
def isTag (v : JValue) (tag : String) : Bool :=
  match v with
  | .vStr s => s == tag
  | _ => false

/-- `VALID_QUESTION_TYPES` from constants.ts. -/
def VALID_QUESTION_TYPES : List String := ["multiple_choice", "fill_blank", "true_false"]

/-- `VALID_DIFFICULTIES` from constants.ts. -/
def VALID_DIFFICULTIES : List String := ["easy", "medium", "hard"]

/-- `BLANK_PLACEHOLDER` from constants.ts. -/
def BLANK_PLACEHOLDER : String := "___"

/-- Counts non-overlapping left-to-right occurrences of `___` in a character
list, matching `question.match(new RegExp(BLANK_PLACEHOLDER, 'g'))`. -/
def countBlanksAux : List Char → Nat
  | '_' :: '_' :: '_' :: rest => countBlanksAux rest + 1
  | _ :: rest => countBlanksAux rest
  | [] => 0

/-- Number of `___` placeholder occurrences in a question string. -/
def countBlanks (s : String) : Nat := countBlanksAux s.data

/-- `ValidationResult` from types.ts. -/
structure ValidationResult where
  valid : Bool
  errors : List String
deriving DecidableEq

/-- The `Missing or invalid "<field>" (must be string)` message. -/
def missingMsg (f : String) : String :=
  "Missing or invalid \"" ++ f ++ "\" (must be string)"

/-- One required-string check: `if (!q.f || typeof q.f !== 'string') push`. -/
def checkString (v : JValue) (f : String) : List String :=
  if jTruthy v && (jTypeof v == "string") then [] else [missingMsg f]

/-- The `type` field check including the enum membership branch. -/
def checkType (v : JValue) : List String :=
  if jTruthy v && (jTypeof v == "string") then
    match v with
    | .vStr s =>
        if VALID_QUESTION_TYPES.contains s then []
        else ["Invalid \"type\": must be one of " ++ String.intercalate ", " VALID_QUESTION_TYPES]
    | _ => []
  else [missingMsg "type"]

/-- The `difficulty` field check including the enum membership branch. -/
def checkDifficulty (v : JValue) : List String :=
  if jTruthy v && (jTypeof v == "string") then
    match v with
    | .vStr s =>
        if VALID_DIFFICULTIES.contains s then []
        else ["Invalid \"difficulty\": must be one of " ++ String.intercalate ", " VALID_DIFFICULTIES]
    | _ => []
  else [missingMsg "difficulty"]

/-- `ValidationService.validateMultipleChoice`. -/
def validateMultipleChoice (q : JValue) : ValidationResult :=
  let e1 :=
    if jTruthy (getField q "correctAnswer") && (jTypeof (getField q "correctAnswer") == "string")
    then []
    else ["Multiple choice: missing or invalid \"correctAnswer\" (must be string)"]
  let e2 :=
    match getField q "incorrectAnswers" with
    | .vArr xs =>
        if xs.length != 3 then ["Multiple choice: \"incorrectAnswers\" must have exactly 3 items"]
        else if xs.all isJString then []
        else ["Multiple choice: all incorrectAnswers must be strings"]
    | _ => ["Multiple choice: missing \"incorrectAnswers\" array"]
  { valid := (e1 ++ e2).isEmpty, errors := e1 ++ e2 }

/-- The count-mismatch diagnostic of `validateFillBlank`, reporting both the
placeholder count and the `blanks` array length. -/
def fillBlankMismatchMsg (found : Nat) (answers : Nat) : String :=
  "Fill blank: found " ++ toString found ++ " \"" ++ BLANK_PLACEHOLDER ++
    "\" in question but " ++ toString answers ++ " answers in blanks array"

/-- `ValidationService.validateFillBlank`. -/
def validateFillBlank (q : JValue) : ValidationResult :=
  match getField q "blanks" with
  | .vArr xs =>
      let e1 := if xs.all isJString then [] else ["Fill blank: all blanks must be strings"]
      let e2 :=
        match getField q "question" with
        | .vStr qt =>
            if countBlanks qt != xs.length then [fillBlankMismatchMsg (countBlanks qt) xs.length]
            else []
        | _ => []
      { valid := (e1 ++ e2).isEmpty, errors := e1 ++ e2 }
  | _ => { valid := false, errors := ["Fill blank: missing \"blanks\" array"] }

/-- `ValidationService.validateTrueFalse`. -/
def validateTrueFalse (q : JValue) : ValidationResult :=
  if jTypeof (getField q "correctAnswer") == "boolean" then { valid := true, errors := [] }
  else
    { valid := false,
      errors := ["True/false: \"correctAnswer\" must be a boolean (true or false), not a string"] }

/-- The variant-specific errors appended after the base checks. -/
def variantErrors (v : JValue) : List String :=
  if isTag (getField v "type") "multiple_choice" then (validateMultipleChoice v).errors
  else if isTag (getField v "type") "fill_blank" then (validateFillBlank v).errors
  else if isTag (getField v "type") "true_false" then (validateTrueFalse v).errors
  else []

/-- `ValidationService.validateQuestion`. -/
def validateQuestion (v : JValue) : ValidationResult :=
  if !(jTruthy v) || jTypeof v != "object" then
    { valid := false, errors := ["Question must be an object"] }
  else
    let errs :=
      checkString (getField v "id") "id" ++
      checkString (getField v "sourceNote") "sourceNote" ++
      checkType (getField v "type") ++
      checkDifficulty (getField v "difficulty") ++
      checkString (getField v "question") "question" ++
      checkString (getField v "explanation") "explanation" ++
      variantErrors v
    { valid := errs.isEmpty, errors := errs }

/-- The per-element error accumulation loop shared by `validateImportFile`
(separator `"; "`) and `ImportService.importQuestions` (separator `", "`):
each invalid element contributes one message prefixed by its 1-based index. -/
def indexedErrorsFrom (sep : String) (i : Nat) : List JValue → List String
  | [] => []
  | q :: rest =>
      (if (validateQuestion q).valid then []
       else ["Question " ++ toString (i + 1) ++ ": " ++
              String.intercalate sep (validateQuestion q).errors]) ++
      indexedErrorsFrom sep (i + 1) rest

/-- `ValidationService.validateImportFile`. -/
def validateImportFile (data : JValue) : ValidationResult :=
  if !(jTruthy data) || jTypeof data != "object" then
    { valid := false, errors := ["Import file must be an object"] }
  else
    match getField data "questions" with
    | .vArr qs =>
        let errs := indexedErrorsFrom "; " 0 qs
        { valid := errs.isEmpty, errors := errs }
    | _ => { valid := false, errors := ["Import file must have a \"questions\" array"] }

/-- `QuestionsFile` from types.ts with the raw validated values stored. -/
structure QuestionsFile where
  version : Int
  questions : List JValue

/-- `ImportResult` from import-service.ts. -/
structure ImportResult where
  success : Bool
  imported : Nat
  errors : List String

/-- `ImportService.importQuestions`, with the file reads and writes turned
into explicit state passing: the import file content is the `Option JValue`
argument (`none` models a missing import.json) and the questions store is
threaded through as the second component of the result. -/
def importQuestions (importData : Option JValue) (store : QuestionsFile) :
    ImportResult × QuestionsFile :=
  match importData with
  | none => ({ success := false, imported := 0,
               errors := ["No import.json file found in .quiz folder"] }, store)
  | some d =>
      let fv := validateImportFile d
      if !fv.valid then ({ success := false, imported := 0, errors := fv.errors }, store)
      else
        let qs := match getField d "questions" with | .vArr xs => xs | _ => []
        let errs := indexedErrorsFrom ", " 0 qs
        let validQuestions := qs.filter (fun q => (validateQuestion q).valid)
        if errs.length > 0 then ({ success := false, imported := 0, errors := errs }, store)
        else
          ({ success := true, imported := validQuestions.length, errors := [] },
           { store with questions := store.questions ++ validQuestions })

/-! ## Quiz session engine (`quiz-service.ts` and the shuffle helpers) -/

/-- Base fields shared by the three question variants (types.ts). -/
structure BaseFields where
  id : String
  sourceNote : String
  createdAt : String
  difficulty : String
  question : String
  explanation : String
deriving DecidableEq

/-- The `Question` tagged union from types.ts. -/
inductive Question where
  | multipleChoice (base : BaseFields) (correctAnswer : String) (incorrectAnswers : List String)
  | fillBlank (base : BaseFields) (blanks : List String)
  | trueFalse (base : BaseFields) (correctAnswer : Bool)
deriving DecidableEq

/-- The `id` field of a question. -/
def qId : Question → String
  | .multipleChoice b _ _ => b.id
  | .fillBlank b _ => b.id
  | .trueFalse b _ => b.id

/-- The `string | string[] | boolean` answer argument of `submitAnswer`. -/
inductive Answer where
  | str (s : String)
  | strList (l : List String)
  | bool (b : Bool)
deriving DecidableEq

/-- `QuizResult` from types.ts. -/
structure QuizResult where
  questionId : String
  correct : Bool
  timeSpent : Int
deriving DecidableEq

/-- `QuizSession` from types.ts. -/
structure QuizSession where
  questions : List Question
  currentIndex : Nat
  results : List QuizResult
  startTime : Int
deriving DecidableEq

/-- `QuizAttempt` from types.ts, with the score as an integer. -/
structure QuizAttempt where
  id : String
  date : String
  questionIds : List String
  results : List QuizResult
  score : Int

/-- One swap of the Fisher-Yates loop body: exchange positions `i` and `j`.
Out-of-range indices leave the list unchanged (the loop never produces them). -/
def swapAt (l : List α) (i j : Nat) : List α :=
  match l[i]?, l[j]? with
  | some a, some b => (l.set i b).set j a
  | _, _ => l

/-- The Fisher-Yates loop of `shuffleArray`, counting `i` down to 1; the
random source `r` stands for `Math.random()`, with `r i % (i + 1)` playing
the role of `Math.floor(Math.random() * (i + 1))`. -/
def fyLoop (r : Nat → Nat) : List α → Nat → List α
  | l, 0 => l
  | l, i + 1 => fyLoop r (swapAt l (i + 1) (r (i + 1) % (i + 2))) i

/-- `shuffleArray` from the helpers module, parameterised by the random
source. -/
def shuffleArray (r : Nat → Nat) (l : List α) : List α :=
  fyLoop r l (l.length - 1)

/-- `shuffledCopy`: the spread copy is identity on immutable values. -/
def shuffledCopy (r : Nat → Nat) (l : List α) : List α :=
  shuffleArray r l

/-- `QuizService.startQuiz`; `count` is the optional numeric argument and
`now` stands for `Date.now()`.  The JavaScript guard
`count && count > 0 && count < length` collapses to `0 < count ∧ count < length`
on integers since `0` is falsy. -/
def startQuiz (r : Nat → Nat) (questions : List Question) (count : Option Int)
    (now : Int) : QuizSession :=
  let quizQuestions := shuffledCopy r questions
  let quizQuestions :=
    match count with
    | some c =>
        if 0 < c ∧ c < (quizQuestions.length : Int) then quizQuestions.take c.toNat
        else quizQuestions
    | none => quizQuestions
  { questions := quizQuestions, currentIndex := 0, results := [], startTime := now }

/-- `QuizService.getCurrentQuestion`. -/
def getCurrentQuestion (session : QuizSession) : Option Question :=
  if session.currentIndex ≥ session.questions.length then none
  else session.questions.get? session.currentIndex

/-- Strip leading and trailing whitespace from a character list (`trim()`). -/
def trimChars (l : List Char) : List Char :=
  ((l.dropWhile Char.isWhitespace).reverse.dropWhile Char.isWhitespace).reverse

/-- `toLowerCase().trim()` normalisation used by the fill-blank comparison,
expressed on the underlying character list. -/
def normAnswer (s : String) : String :=
  ⟨trimChars (s.data.map Char.toLower)⟩

/-- `QuizService.checkAnswer`.  Strict `===` comparison for the string and
boolean variants; per-position truthiness plus normalised comparison for the
fill-blank variant. -/
def checkAnswer (question : Question) (answer : Answer) : Bool :=
  match question with
  | .multipleChoice _ correctAnswer _ =>
      match answer with
      | .str s => s == correctAnswer
      | _ => false
  | .trueFalse _ correctAnswer =>
      match answer with
      | .bool b => b == correctAnswer
      | _ => false
  | .fillBlank _ blanks =>
      match answer with
      | .strList l =>
          if l.length != blanks.length then false
          else (blanks.zip l).all
            (fun p => (p.2 != "") && (normAnswer p.2 == normAnswer p.1))
      | _ => false

/-- `QuizService.submitAnswer` as explicit state passing: returns the
correctness flag and the updated session. -/
def submitAnswer (session : QuizSession) (answer : Answer) (timeSpent : Int) :
    Bool × QuizSession :=
  match getCurrentQuestion session with
  | none => (false, session)
  | some question =>
      let correct := checkAnswer question answer
      (correct,
       { session with
           results := session.results ++
             [{ questionId := qId question, correct := correct, timeSpent := timeSpent }],
           currentIndex := session.currentIndex + 1 })

/-- `QuizService.isQuizComplete`. -/
def isQuizComplete (session : QuizSession) : Bool :=
  session.currentIndex ≥ session.questions.length

/-- JavaScript `Math.round`: round half toward positive infinity. -/
def jsRound (x : ℚ) : Int := Int.floor (x + 1 / 2)

/-- `QuizService.finishQuiz`; `newId` stands for `generateId()` and `now`
for `getCurrentTimestamp()`. -/
def finishQuiz (session : QuizSession) (newId : String) (now : String) : QuizAttempt :=
  let correctCount := (session.results.filter (fun r => r.correct)).length
  let totalQuestions := session.questions.length
  let score :=
    if totalQuestions > 0 then
      jsRound (((correctCount : ℚ) / (totalQuestions : ℚ)) * 100)
    else 0
  { id := newId, date := now, questionIds := session.questions.map qId,
    results := session.results, score := score }

/-! ## Streak engine (`streak-service.ts`)

Dates are modelled as calendar-day indices: the source normalises every
date to local midnight (`getToday`, `parseDate`) before comparing, and
`formatDate`/`parseDate` are mutually inverse on such dates, so string
equality of `YYYY-MM-DD` values coincides with day-index equality and
`daysBetween` is the difference of day indices. -/

/-- `StreakInfo` from streak-service.ts; `lastQuizDate` is a day index or
`none` for the `null` date. -/
structure StreakInfo where
  current : Nat
  longest : Nat
  lastQuizDate : Option Nat
deriving DecidableEq

/-- `StreakService.daysBetween` on midnight-normalised dates. -/
def daysBetween (date1 date2 : Nat) : Int := (date2 : Int) - (date1 : Int)

/-- `StreakService.checkAndUpdateStreak` as explicit state passing. -/
def checkAndUpdateStreak (s : StreakInfo) (today : Nat) : StreakInfo :=
  match s.lastQuizDate with
  | none => s
  | some lastDate =>
      if daysBetween lastDate today > 1 then { s with current := 0 } else s

/-- `StreakService.incrementStreak` as explicit state passing. -/
def incrementStreak (s : StreakInfo) (today : Nat) : StreakInfo :=
  if s.lastQuizDate = some today then s
  else
    let c := s.current + 1
    { current := c,
      longest := if c > s.longest then c else s.longest,
      lastQuizDate := some today }

/-- `StreakService.resetStreak` as explicit state passing. -/
def resetStreak (s : StreakInfo) : StreakInfo :=
  { s with current := 0, lastQuizDate := none }

/-- One Streak Engine operation. -/
inductive StreakOp where
  | check (today : Nat)
  | increment (today : Nat)
  | reset

/-- Apply one Streak Engine operation to a state. -/
def applyOp (s : StreakInfo) : StreakOp → StreakInfo
  | .check t => checkAndUpdateStreak s t
  | .increment t => incrementStreak s t
  | .reset => resetStreak s

/-- Apply a sequence of Streak Engine operations left to right. -/
def applyOps (s : StreakInfo) (ops : List StreakOp) : StreakInfo :=
  ops.foldl applyOp s

/-! ## Helper lemmas -/

/-- A single Streak Engine operation preserves `current ≤ longest`. -/
theorem applyOp_longest_ge (s : StreakInfo) (h : s.current ≤ s.longest) (op : StreakOp) :
    (applyOp s op).current ≤ (applyOp s op).longest := by
  cases op with
  | check t =>
      simp only [applyOp, checkAndUpdateStreak]
      cases s.lastQuizDate with
      | none => exact h
      | some d =>
          dsimp only
          split
          · exact Nat.zero_le _
          · exact h
  | increment t =>
      simp only [applyOp, incrementStreak]
      split
      · exact h
      · dsimp only
        split <;> omega
  | reset => simp [applyOp, resetStreak]

/-- Folding any operation sequence preserves `current ≤ longest`. -/
theorem applyOps_longest_ge (ops : List StreakOp) :
    ∀ s : StreakInfo, s.current ≤ s.longest →
      (applyOps s ops).current ≤ (applyOps s ops).longest := by
  induction ops with
  | nil => intro s h; simpa [applyOps] using h
  | cons op rest ih =>
      intro s h
      simpa [applyOps] using ih (applyOp s op) (applyOp_longest_ge s h op)

/-! ## Claims -/

/-- C3: `checkAndUpdateStreak` is a no-op when `lastQuizDate` is unset or is
the same day or exactly one day before `today`; with a gap of two or more
calendar days it resets `current` to 0 and leaves `longest` and
`lastQuizDate` unchanged. -/
theorem checkAndUpdateStreak_c3 (s : StreakInfo) (today : Nat) :
    (s.lastQuizDate = none → checkAndUpdateStreak s today = s) ∧
    (∀ d, s.lastQuizDate = some d → (d = today ∨ d + 1 = today) →
      checkAndUpdateStreak s today = s) ∧
    (∀ d, s.lastQuizDate = some d → d + 2 ≤ today →
      (checkAndUpdateStreak s today).current = 0 ∧
      (checkAndUpdateStreak s today).longest = s.longest ∧
      (checkAndUpdateStreak s today).lastQuizDate = s.lastQuizDate) := by
  refine ⟨?_, ?_, ?_⟩
  · intro h
    simp [checkAndUpdateStreak, h]
  · intro d hd hcase
    have hneg : ¬ (daysBetween d today > 1) := by
      simp only [daysBetween]
      omega
    simp [checkAndUpdateStreak, hd, hneg]
  · intro d hd hgap
    have hpos : daysBetween d today > 1 := by
      simp only [daysBetween]
      omega
    simp [checkAndUpdateStreak, hd, hpos]

/-- Witness for C3 at concrete states: a one-day gap is kept, a two-day gap
resets `current`. -/
theorem checkAndUpdateStreak_c3_witness :
    checkAndUpdateStreak ⟨3, 5, some 10⟩ 11 = ⟨3, 5, some 10⟩ ∧
    (checkAndUpdateStreak ⟨3, 5, some 10⟩ 12).current = 0 :=
  ⟨(checkAndUpdateStreak_c3 ⟨3, 5, some 10⟩ 11).2.1 10 rfl (Or.inr rfl),
   ((checkAndUpdateStreak_c3 ⟨3, 5, some 10⟩ 12).2.2 10 rfl (by omega)).1⟩

/-- C4: `incrementStreak` is a no-op when `lastQuizDate` is already `today`,
otherwise it increments `current`, stamps `today`, raises `longest` when
exceeded — and calling it a second time with the same `today` returns the
first call's state unchanged. -/
theorem incrementStreak_c4 (s : StreakInfo) (today : Nat) :
    (s.lastQuizDate = some today → incrementStreak s today = s) ∧
    (s.lastQuizDate ≠ some today →
      (incrementStreak s today).current = s.current + 1 ∧
      (incrementStreak s today).lastQuizDate = some today ∧
      (incrementStreak s today).longest =
        (if s.current + 1 > s.longest then s.current + 1 else s.longest)) ∧
    incrementStreak (incrementStreak s today) today = incrementStreak s today := by
  refine ⟨?_, ?_, ?_⟩
  · intro h
    simp [incrementStreak, h]
  · intro h
    simp [incrementStreak, h]
  · by_cases h : s.lastQuizDate = some today
    · simp [incrementStreak, h]
    · simp [incrementStreak, h]

/-- Witness for C4: a fresh day increments, a same-day call is the
identity. -/
theorem incrementStreak_c4_witness :
    (incrementStreak ⟨2, 2, some 9⟩ 10).current = 3 ∧
    incrementStreak ⟨3, 5, some 10⟩ 10 = ⟨3, 5, some 10⟩ :=
  ⟨((incrementStreak_c4 ⟨2, 2, some 9⟩ 10).2.1 (by simp)).1,
   (incrementStreak_c4 ⟨3, 5, some 10⟩ 10).1 rfl⟩

/-- C5: starting from any state with `current ≤ longest`, every single
Streak Engine operation and every operation sequence preserves
`current ≤ longest`. -/
theorem streak_invariant_c5 (s : StreakInfo) (h : s.current ≤ s.longest) :
    (∀ op : StreakOp, (applyOp s op).current ≤ (applyOp s op).longest) ∧
    (∀ ops : List StreakOp, (applyOps s ops).current ≤ (applyOps s ops).longest) :=
  ⟨fun op => applyOp_longest_ge s h op, fun ops => applyOps_longest_ge ops s h⟩

/-- Witness for C5 on a concrete state and operation sequence. -/
theorem streak_invariant_c5_witness :
    (applyOps ⟨0, 0, none⟩
        [.increment 1, .increment 3, .check 9, .reset]).current ≤
      (applyOps ⟨0, 0, none⟩
        [.increment 1, .increment 3, .check 9, .reset]).longest :=
  (streak_invariant_c5 ⟨0, 0, none⟩ (Nat.le_refl 0)).2
    [.increment 1, .increment 3, .check 9, .reset]

/-- C9: submitting on a completed session returns `false` and leaves the
session unchanged. -/
theorem submitAnswer_c9 (session : QuizSession) (answer : Answer) (timeSpent : Int)
    (h : session.questions.length ≤ session.currentIndex) :
    submitAnswer session answer timeSpent = (false, session) := by
  simp [submitAnswer, getCurrentQuestion, h]

/-- Witness for C9: a one-question session whose cursor is already past the
end. -/
theorem submitAnswer_c9_witness :
    submitAnswer
      ⟨[Question.trueFalse ⟨"a", "n.md", "t", "easy", "q?", "e"⟩ true], 1, [], 0⟩
      (Answer.bool true) 5 =
      (false,
       ⟨[Question.trueFalse ⟨"a", "n.md", "t", "easy", "q?", "e"⟩ true], 1, [], 0⟩) :=
  submitAnswer_c9 _ _ _ (by simp)

/-- C8: `finishQuiz` scores `round(100 * correctCount / totalQuestions)`,
defined as 0 on an empty session, and copies the question ids and results in
order. -/
theorem finishQuiz_c8 (session : QuizSession) (newId now : String) :
    (session.questions.length ≠ 0 →
      (finishQuiz session newId now).score =
        jsRound (100 * ((session.results.filter (fun r => r.correct)).length : ℚ) /
          (session.questions.length : ℚ))) ∧
    (session.questions.length = 0 → (finishQuiz session newId now).score = 0) ∧
    (finishQuiz session newId now).questionIds = session.questions.map qId ∧
    (finishQuiz session newId now).results = session.results := by
  refine ⟨?_, ?_, rfl, rfl⟩
  · intro h
    have hpos : 0 < session.questions.length := Nat.pos_of_ne_zero h
    simp only [finishQuiz, if_pos hpos]
    congr 1
    ring
  · intro h
    simp [finishQuiz, h]

/-- Witness for C8: an empty session scores 0. -/
theorem finishQuiz_c8_witness :
    (finishQuiz ⟨[], 0, [], 0⟩ "id1" "2024-01-01").score = 0 :=
  (finishQuiz_c8 ⟨[], 0, [], 0⟩ "id1" "2024-01-01").2.1 rfl

/-- C2 (amended): `checkAnswer` on a fill-blank question is true exactly for
an ordered list of the right length whose every position is a non-empty
string matching the corresponding blank case-insensitively after trimming;
the empty submitted string never matches, because of the truthiness guard
`answer[i] && ...`. -/
theorem checkAnswer_fillBlank_c2 (base : BaseFields) (blanks : List String)
    (answer : Answer) :
    checkAnswer (Question.fillBlank base blanks) answer = true ↔
      ∃ l, answer = Answer.strList l ∧ l.length = blanks.length ∧
        ∀ p ∈ blanks.zip l, p.2 ≠ "" ∧ normAnswer p.2 = normAnswer p.1 := by
  cases answer with
  | str s => simp [checkAnswer]
  | bool b => simp [checkAnswer]
  | strList l =>
      by_cases h : l.length = blanks.length
      · simp [checkAnswer, h, List.all_eq_true, Bool.and_eq_true, bne_iff_ne,
          beq_iff_eq, ne_eq]
      · simp [checkAnswer, h, bne_iff_ne]

/-- Witness for C2 (amended): `blanks = ["Queue"]` accepts `[" queue "]`. -/
theorem checkAnswer_fillBlank_c2_witness :
    checkAnswer
      (Question.fillBlank ⟨"f1", "n.md", "t", "easy", "___ is FIFO", "e"⟩ ["Queue"])
      (Answer.strList [" queue "]) = true :=
  (checkAnswer_fillBlank_c2 ⟨"f1", "n.md", "t", "easy", "___ is FIFO", "e"⟩
      ["Queue"] (Answer.strList [" queue "])).mpr
    ⟨[" queue "], rfl, rfl, by decide⟩

/-- Counterexample to C2 as stated: with `blanks = [""]` and submitted
`[""]`, the list has matching length and the position matches after
trimming and case-folding, yet `checkAnswer` returns `false`. -/
theorem checkAnswer_c2_cex :
    checkAnswer (Question.fillBlank ⟨"f2", "n.md", "t", "easy", "___", "e"⟩ [""])
      (Answer.strList [""]) = false ∧
    List.length ([""] : List String) = List.length ([""] : List String) ∧
    ((([""] : List String).zip ([""] : List String)).all
      (fun p => normAnswer p.2 == normAnswer p.1)) = true :=
  ⟨rfl, rfl, by decide⟩

/-- Swapping a list's head with position `k` (written with `set`) is a
permutation. -/
theorem cons_set_perm (x : α) (xs : List α) (k : Nat) (b : α)
    (hk : xs[k]? = some b) :
    List.Perm (x :: xs) (b :: xs.set k x) := by
  induction xs generalizing k with
  | nil => simp at hk
  | cons y t ih =>
      cases k with
      | zero =>
          simp at hk
          rw [← hk]
          simpa using List.Perm.swap y x t
      | succ k' =>
          simp at hk
          have h2 := ih k' hk
          exact (List.Perm.swap y x t).trans
            ((h2.cons y).trans (List.Perm.swap b y (t.set k' x)))

/-- Writing each of two in-range positions with the other's element is a
permutation. -/
theorem set_set_perm (l : List α) (i j : Nat) (a b : α)
    (ha : l[i]? = some a) (hb : l[j]? = some b) :
    List.Perm ((l.set i b).set j a) l := by
  induction l generalizing i j with
  | nil => simp at ha
  | cons x t ih =>
      cases i with
      | zero =>
          simp at ha
          subst ha
          cases j with
          | zero =>
              simp at hb
              subst hb
              simp
          | succ j' =>
              simp at hb
              simpa using (cons_set_perm x t j' b hb).symm
      | succ i' =>
          simp at ha
          cases j with
          | zero =>
              simp at hb
              subst hb
              simpa using (cons_set_perm x t i' a ha).symm
          | succ j' =>
              simp at hb
              simpa using ((ih i' j' ha hb).cons x)

/-- One Fisher-Yates swap is a permutation. -/
theorem swapAt_perm (l : List α) (i j : Nat) : List.Perm (swapAt l i j) l := by
  unfold swapAt
  cases hi : l[i]? with
  | none => cases l[j]? <;> simp
  | some a =>
      cases hj : l[j]? with
      | none => simp
      | some b => exact set_set_perm l i j a b hi hj

/-- The whole Fisher-Yates loop is a permutation, for any random source. -/
theorem fyLoop_perm (r : Nat → Nat) (l : List α) (n : Nat) :
    List.Perm (fyLoop r l n) l := by
  induction n generalizing l with
  | zero => simp [fyLoop]
  | succ i ih =>
      exact (ih (swapAt l (i + 1) (r (i + 1) % (i + 2)))).trans
        (swapAt_perm l (i + 1) (r (i + 1) % (i + 2)))

/-- `shuffledCopy` always returns a permutation of its input. -/
theorem shuffledCopy_perm (r : Nat → Nat) (l : List α) :
    List.Perm (shuffledCopy r l) l :=
  fyLoop_perm r l (l.length - 1)

/-- C7 (amended): `startQuiz` always starts at index 0 with empty results;
for a given count with `0 < count < length` the session's questions are the
length-`count` prefix of a permutation of the input; when the count is
absent, non-positive (including 0, which is falsy in the source's guard), or
at least the input length, the session holds a full permutation of the
input. -/
theorem startQuiz_c7 (r : Nat → Nat) (questions : List Question)
    (count : Option Int) (now : Int) :
    (startQuiz r questions count now).currentIndex = 0 ∧
    (startQuiz r questions count now).results = [] ∧
    (∀ c, count = some c → 0 < c → c < (questions.length : Int) →
      (startQuiz r questions count now).questions.length = c.toNat ∧
      ∃ l, List.Perm l questions ∧
        (startQuiz r questions count now).questions = l.take c.toNat) ∧
    ((count = none ∨ ∃ c, count = some c ∧ (c ≤ 0 ∨ (questions.length : Int) ≤ c)) →
      List.Perm (startQuiz r questions count now).questions questions) := by
  have hperm : List.Perm (shuffledCopy r questions) questions :=
    shuffledCopy_perm r questions
  have hlen : (shuffledCopy r questions).length = questions.length := hperm.length_eq
  cases count with
  | none =>
      refine ⟨rfl, rfl, ?_, ?_⟩
      · intro c hc
        cases hc
      · intro _
        simpa [startQuiz] using hperm
  | some c =>
      by_cases hc : 0 < c ∧ c < ((shuffledCopy r questions).length : Int)
      · have hs : startQuiz r questions (some c) now =
            ⟨(shuffledCopy r questions).take c.toNat, 0, [], now⟩ := by
          simp only [startQuiz, if_pos hc]
        refine ⟨by rw [hs], by rw [hs], ?_, ?_⟩
        · intro c' hc' _ _
          have hcc : c' = c := by injection hc' with h; exact h.symm
          subst hcc
          refine ⟨?_, ⟨shuffledCopy r questions, hperm, by rw [hs]⟩⟩
          rw [hs]
          simp only [List.length_take]
          omega
        · intro hcase
          rcases hcase with h | ⟨c', hc', hrange⟩
          · cases h
          · have hcc : c' = c := by injection hc' with h; exact h.symm
            subst hcc
            rw [hlen] at hc
            omega
      · have hs : startQuiz r questions (some c) now =
            ⟨shuffledCopy r questions, 0, [], now⟩ := by
          simp only [startQuiz, if_neg hc]
        refine ⟨by rw [hs], by rw [hs], ?_, ?_⟩
        · intro c' hc' h1 h2
          have hcc : c' = c := by injection hc' with h; exact h.symm
          subst hcc
          rw [hlen] at hc
          exact absurd ⟨h1, h2⟩ hc
        · intro _
          rw [hs]
          exact hperm

/-- Witness for C7: three questions truncated to two give a session of
length 2. -/
theorem startQuiz_c7_witness :
    (startQuiz (fun _ => 0)
        [Question.trueFalse ⟨"a", "n.md", "t", "easy", "q?", "e"⟩ true,
         Question.trueFalse ⟨"b", "n.md", "t", "easy", "q?", "e"⟩ false,
         Question.trueFalse ⟨"c", "n.md", "t", "easy", "q?", "e"⟩ true]
        (some 2) 0).questions.length = Int.toNat 2 :=
  ((startQuiz_c7 (fun _ => 0)
      [Question.trueFalse ⟨"a", "n.md", "t", "easy", "q?", "e"⟩ true,
       Question.trueFalse ⟨"b", "n.md", "t", "easy", "q?", "e"⟩ false,
       Question.trueFalse ⟨"c", "n.md", "t", "easy", "q?", "e"⟩ true]
      (some 2) 0).2.2.1 2 rfl (by decide) (by decide)).1

/-- Counterexample to C7 as stated: a count of 0 (claimed to give an empty
session) is falsy in the source's guard, so the full two-question
permutation is returned instead. -/
theorem startQuiz_c7_cex :
    (startQuiz (fun _ => 0)
        [Question.trueFalse ⟨"a", "n.md", "t", "easy", "q?", "e"⟩ true,
         Question.trueFalse ⟨"b", "n.md", "t", "easy", "q?", "e"⟩ false]
        (some 0) 0).questions.length = 2 ∧
    ¬ ((startQuiz (fun _ => 0)
        [Question.trueFalse ⟨"a", "n.md", "t", "easy", "q?", "e"⟩ true,
         Question.trueFalse ⟨"b", "n.md", "t", "easy", "q?", "e"⟩ false]
        (some 0) 0).questions.length = 0) := by
  refine ⟨by decide, by decide⟩

/-- The indexed error accumulation is empty exactly on an all-valid batch. -/
theorem indexedErrorsFrom_eq_nil (sep : String) (qs : List JValue)
    (h : ∀ q ∈ qs, (validateQuestion q).valid = true) :
    ∀ i, indexedErrorsFrom sep i qs = [] := by
  induction qs with
  | nil => intro i; rfl
  | cons q rest ih =>
      intro i
      have hq := h q (by simp)
      simp [indexedErrorsFrom, hq, ih (fun q' hq' => h q' (by simp [hq']))]

/-- Each invalid batch element contributes its index-prefixed message to the
indexed error accumulation. -/
theorem indexedErrorsFrom_mem (sep : String) (qs : List JValue) :
    ∀ i k q, qs[k]? = some q → (validateQuestion q).valid = false →
      ("Question " ++ toString (i + k + 1) ++ ": " ++
        String.intercalate sep (validateQuestion q).errors) ∈
        indexedErrorsFrom sep i qs := by
  induction qs with
  | nil =>
      intro i k q h
      simp at h
  | cons q0 rest ih =>
      intro i k q hget hv
      cases k with
      | zero =>
          simp at hget
          subst hget
          simp [indexedErrorsFrom, hv]
      | succ k' =>
          simp at hget
          have hmem := ih (i + 1) k' q hget hv
          rw [show i + (k' + 1) + 1 = i + 1 + k' + 1 by omega]
          exact List.mem_append_right _ hmem

/-- On a truthy object, `validateQuestion`'s result is the concatenation of
the base-field checks and the variant check, with validity its emptiness. -/
theorem validateQuestion_vObj (fields : List (String × JValue)) :
    validateQuestion (JValue.vObj fields) =
      { valid :=
          (checkString (getField (JValue.vObj fields) "id") "id" ++
           checkString (getField (JValue.vObj fields) "sourceNote") "sourceNote" ++
           checkType (getField (JValue.vObj fields) "type") ++
           checkDifficulty (getField (JValue.vObj fields) "difficulty") ++
           checkString (getField (JValue.vObj fields) "question") "question" ++
           checkString (getField (JValue.vObj fields) "explanation") "explanation" ++
           variantErrors (JValue.vObj fields)).isEmpty,
        errors :=
          checkString (getField (JValue.vObj fields) "id") "id" ++
          checkString (getField (JValue.vObj fields) "sourceNote") "sourceNote" ++
          checkType (getField (JValue.vObj fields) "type") ++
          checkDifficulty (getField (JValue.vObj fields) "difficulty") ++
          checkString (getField (JValue.vObj fields) "question") "question" ++
          checkString (getField (JValue.vObj fields) "explanation") "explanation" ++
          variantErrors (JValue.vObj fields) } := rfl

/-- A required-string check on the empty string reports the field missing. -/
theorem checkString_empty (f : String) :
    checkString (JValue.vStr "") f = [missingMsg f] := rfl

/-- C10: an empty string in any required string field (including `type` and
`difficulty`) makes `validateQuestion` reject the candidate with the
`Missing or invalid` message for that field, since the presence check treats
falsy values as missing. -/
theorem validateQuestion_c10 (fields : List (String × JValue)) (f : String)
    (hf : f ∈ ["id", "sourceNote", "type", "difficulty", "question", "explanation"])
    (he : getField (JValue.vObj fields) f = JValue.vStr "") :
    (validateQuestion (JValue.vObj fields)).valid = false ∧
    missingMsg f ∈ (validateQuestion (JValue.vObj fields)).errors := by
  have hmem : missingMsg f ∈ (validateQuestion (JValue.vObj fields)).errors := by
    rw [validateQuestion_vObj]
    simp only [List.mem_append]
    fin_cases hf
    · rw [he]
      simp [checkString_empty]
    · rw [he]
      simp [checkString_empty]
    · rw [he]
      simp [checkType, jTruthy, missingMsg]
    · rw [he]
      simp [checkDifficulty, jTruthy, missingMsg]
    · rw [he]
      simp [checkString_empty]
    · rw [he]
      simp [checkString_empty]
  refine ⟨?_, hmem⟩
  rw [validateQuestion_vObj] at hmem ⊢
  simp only at hmem ⊢
  have hne := List.ne_nil_of_mem hmem
  simpa [List.isEmpty_iff] using hne

/-- Witness for C10: an object whose `id` is the empty string is rejected. -/
theorem validateQuestion_c10_witness :
    (validateQuestion (JValue.vObj [("id", JValue.vStr "")])).valid = false :=
  (validateQuestion_c10 [("id", JValue.vStr "")] "id" (by simp) rfl).1

/-- C6 (amended): on a candidate whose `question` is a string and whose
`blanks` is an array of strings, the fill-blank variant check
`validateFillBlank` fails exactly when the `___` placeholder count in the
question text differs from `blanks.length`, and then its single error
reports both counts.  (`validateQuestion` itself can also fail for reasons
outside the fill-blank check, e.g. a missing `id`.) -/
theorem validateFillBlank_c6 (q : JValue) (qtext : String) (blanks : List String)
    (hq : getField q "question" = JValue.vStr qtext)
    (hb : getField q "blanks" = JValue.vArr (blanks.map JValue.vStr)) :
    ((validateFillBlank q).valid = true ↔ countBlanks qtext = blanks.length) ∧
    (countBlanks qtext ≠ blanks.length →
      (validateFillBlank q).errors =
        [fillBlankMismatchMsg (countBlanks qtext) blanks.length]) := by
  have hall : (blanks.map JValue.vStr).all isJString = true := by
    simp [List.all_eq_true, isJString]
  by_cases hcnt : countBlanks qtext = blanks.length
  · constructor
    · simp [validateFillBlank, hb, hq, hall, hcnt]
    · intro h
      exact absurd hcnt h
  · constructor
    · simp [validateFillBlank, hb, hq, hall, hcnt]
    · intro _
      simp [validateFillBlank, hb, hq, hall, hcnt]

/-- Witness for C6: one placeholder against two blanks yields the
two-count diagnostic. -/
theorem validateFillBlank_c6_witness :
    (validateFillBlank (JValue.vObj
        [("question", JValue.vStr "a ___ b"),
         ("blanks", JValue.vArr [JValue.vStr "x", JValue.vStr "y"])])).errors =
      [fillBlankMismatchMsg 1 2] :=
  (validateFillBlank_c6
      (JValue.vObj
        [("question", JValue.vStr "a ___ b"),
         ("blanks", JValue.vArr [JValue.vStr "x", JValue.vStr "y"])])
      "a ___ b" ["x", "y"] rfl rfl).2 (by decide)

/-- Counterexample to C6 as stated: this fill-blank candidate has a string
`question` with exactly one `___` and a one-element string `blanks` array
(counts agree), yet `validateQuestion` still marks it invalid, because the
other required fields are missing — so count mismatch is not the exact
characterisation of invalidity for `validateQuestion`. -/
theorem validateQuestion_c6_cex :
    countBlanks "What is ___?" = List.length [JValue.vStr "recursion"] ∧
    (validateQuestion (JValue.vObj
        [("type", JValue.vStr "fill_blank"),
         ("question", JValue.vStr "What is ___?"),
         ("blanks", JValue.vArr [JValue.vStr "recursion"])])).valid = false :=
  ⟨rfl, by decide⟩

/-- On a truthy object whose `questions` property is an array,
`validateImportFile` returns the indexed per-element error list with its
emptiness as the validity flag. -/
theorem validateImportFile_vArr (d : JValue) (qs : List JValue)
    (htr : jTruthy d = true) (hobj : jTypeof d = "object")
    (hq : getField d "questions" = JValue.vArr qs) :
    validateImportFile d =
      { valid := (indexedErrorsFrom "; " 0 qs).isEmpty,
        errors := indexedErrorsFrom "; " 0 qs } := by
  simp only [validateImportFile, htr, hobj, hq]
  simp

/-- C1: the import is all-or-nothing.  If any batch element fails question
validation, the result is `success = false`, `imported = 0`, the store is
unchanged and the error list is exactly the indexed per-element list, which
contains every failing element's messages prefixed with its 1-based index;
if every element is valid, the result is `success = true` with `imported`
the batch length, no errors, and the store's question list is the old list
with the whole batch appended in order, values unchanged. -/
theorem importQuestions_c1 (d : JValue) (store : QuestionsFile) (qs : List JValue)
    (htr : jTruthy d = true) (hobj : jTypeof d = "object")
    (hq : getField d "questions" = JValue.vArr qs) :
    ((∃ q ∈ qs, (validateQuestion q).valid = false) →
      (importQuestions (some d) store).1.success = false ∧
      (importQuestions (some d) store).1.imported = 0 ∧
      (importQuestions (some d) store).2 = store ∧
      (importQuestions (some d) store).1.errors = indexedErrorsFrom "; " 0 qs ∧
      ∀ k q, qs[k]? = some q → (validateQuestion q).valid = false →
        ("Question " ++ toString (k + 1) ++ ": " ++
          String.intercalate "; " (validateQuestion q).errors) ∈
          (importQuestions (some d) store).1.errors) ∧
    ((∀ q ∈ qs, (validateQuestion q).valid = true) →
      (importQuestions (some d) store).1.success = true ∧
      (importQuestions (some d) store).1.imported = qs.length ∧
      (importQuestions (some d) store).1.errors = [] ∧
      (importQuestions (some d) store).2.questions = store.questions ++ qs ∧
      (importQuestions (some d) store).2.version = store.version) := by
  have hvif := validateImportFile_vArr d qs htr hobj hq
  constructor
  · intro hbad
    obtain ⟨q, hqmem, hv⟩ := hbad
    obtain ⟨k, hk⟩ := List.getElem?_of_mem hqmem
    have hmsg := indexedErrorsFrom_mem "; " qs 0 k q hk hv
    have hne : indexedErrorsFrom "; " 0 qs ≠ [] := List.ne_nil_of_mem hmsg
    have hempty : (indexedErrorsFrom "; " 0 qs).isEmpty = false := by
      simpa [List.isEmpty_iff] using hne
    have himp : importQuestions (some d) store =
        ({ success := false, imported := 0,
           errors := indexedErrorsFrom "; " 0 qs }, store) := by
      simp only [importQuestions, hvif, hempty]
      simp
    rw [himp]
    refine ⟨rfl, rfl, rfl, rfl, ?_⟩
    intro k' q' hk' hv'
    have := indexedErrorsFrom_mem "; " qs 0 k' q' hk' hv'
    simpa using this
  · intro hgood
    have h1 : indexedErrorsFrom "; " 0 qs = [] :=
      indexedErrorsFrom_eq_nil "; " qs hgood 0
    have h2 : indexedErrorsFrom ", " 0 qs = [] :=
      indexedErrorsFrom_eq_nil ", " qs hgood 0
    have hfilter : qs.filter (fun q => (validateQuestion q).valid) = qs :=
      List.filter_eq_self.mpr (fun a ha => by simp [hgood a ha])
    have himp : importQuestions (some d) store =
        ({ success := true, imported := qs.length, errors := [] },
         { store with questions := store.questions ++ qs }) := by
      simp only [importQuestions, hvif, h1, h2, hq, hfilter]
      simp
    rw [himp]
    exact ⟨rfl, rfl, rfl, rfl, rfl⟩

/-- Witness for C1: a batch with one malformed entry is rejected outright;
a batch with one fully valid true/false question is accepted. -/
theorem importQuestions_c1_witness :
    (importQuestions
        (some (JValue.vObj [("questions", JValue.vArr [JValue.vNum 5])]))
        ⟨1, []⟩).1.success = false ∧
    (importQuestions
        (some (JValue.vObj [("questions", JValue.vArr
          [JValue.vObj
            [("id", JValue.vStr "q1"), ("sourceNote", JValue.vStr "n.md"),
             ("type", JValue.vStr "true_false"),
             ("difficulty", JValue.vStr "easy"),
             ("question", JValue.vStr "Is it?"),
             ("explanation", JValue.vStr "yes"),
             ("correctAnswer", JValue.vBool true)]])]))
        ⟨1, []⟩).1.success = true :=
  ⟨((importQuestions_c1
      (JValue.vObj [("questions", JValue.vArr [JValue.vNum 5])]) ⟨1, []⟩
      [JValue.vNum 5] rfl rfl rfl).1
      ⟨JValue.vNum 5, by simp, by decide⟩).1,
   ((importQuestions_c1
      (JValue.vObj [("questions", JValue.vArr
        [JValue.vObj
          [("id", JValue.vStr "q1"), ("sourceNote", JValue.vStr "n.md"),
           ("type", JValue.vStr "true_false"),
           ("difficulty", JValue.vStr "easy"),
           ("question", JValue.vStr "Is it?"),
           ("explanation", JValue.vStr "yes"),
           ("correctAnswer", JValue.vBool true)]])]) ⟨1, []⟩
      [JValue.vObj
        [("id", JValue.vStr "q1"), ("sourceNote", JValue.vStr "n.md"),
         ("type", JValue.vStr "true_false"),
         ("difficulty", JValue.vStr "easy"),
         ("question", JValue.vStr "Is it?"),
         ("explanation", JValue.vStr "yes"),
         ("correctAnswer", JValue.vBool true)]] rfl rfl rfl).2
      (by intro q hq; simp at hq; subst hq; decide)).1⟩

end VaultRecall
